import Mathlib

/-!
Verification of the envelope-encryption core of the secure-drive repository.

The development embeds, as executable Lean definitions, the repository's
crypto modules (Node `crypto.js` and WebCrypto `part_008` variants of
AES-256-GCM and RSA-OAEP key wrapping), the file-encryption API
(`part_007`), the KMS integration sharing protocol
(`src/crypto/kms-integration.js`), the demo KMS server's store and handlers
(`kms-server/src/crypto.ts`, `store.ts`, `index.ts` = `part_001`), the key
registry handler embedded in the Next.js API (`src/index.js` second half),
and the PKI server (`kms-pki-server/index.ts`).

The cryptographic library primitives that the repository calls
(`crypto.createCipheriv('aes-256-gcm', ...)`, `crypto.publicEncrypt` with
OAEP padding, `crypto.subtle`) are not part of the repository; they are
modelled at their documented interface level:

* AES-256-GCM is modelled as counter-mode XOR with a deterministic
  keystream derived from (key, iv), plus a 16-byte authentication tag that
  is a deterministic keyed residue of (key, iv, ciphertext) modulo the odd
  constant `gcmP`.  This captures the properties the repository code relies
  on: determinism, length preservation, XOR-involution of the CTR layer,
  and the Carter–Wegman-style guarantee that any single-bit change of the
  ciphertext or tag changes the authentication check's outcome.
* RSA-OAEP wrap/unwrap is modelled as an ideal labelled encryption: the
  wrapped blob records the wrapping key-pair identifier followed by the
  payload; unwrapping checks the identifier against the private key (the
  OAEP integrity check, which rejects a ciphertext produced for a different
  key pair) and the blob's well-formedness.  Failure messages mirror
  OpenSSL's distinct errors for undersized input versus OAEP decoding
  failure, which Node surfaces in `error.message`.
* Base64 transport is modelled by the 6-bit-group encoding underlying it
  (the base64 alphabet is a bijection between 6-bit values and characters).
* Randomness (`crypto.randomBytes`, `randomUUID`, `Date.now()`) is passed
  to each modelled operation as an explicit argument.
-/

namespace SecureDrive

/-! ### Byte-sequence helpers -/

/-- Little-endian interpretation of a byte list as a natural number. -/
def bytesToNat : List Nat → Nat
  | [] => 0
  | b :: bs => b + 256 * bytesToNat bs

/-- Little-endian rendering of a natural number into `n` bytes. -/
def natToBytes : Nat → Nat → List Nat
  | 0, _ => []
  | n + 1, v => v % 256 :: natToBytes n (v / 256)

theorem length_natToBytes (n : Nat) : ∀ v, (natToBytes n v).length = n := by
  induction n with
  | zero => intro v; rfl
  | succ n ih => intro v; simp [natToBytes, ih]

theorem bytesToNat_natToBytes (n : Nat) : ∀ v, bytesToNat (natToBytes n v) = v % 256 ^ n := by
  induction n with
  | zero => intro v; simp [natToBytes, bytesToNat, Nat.mod_one]
  | succ n ih =>
      intro v
      rw [pow_succ']
      rw [Nat.mod_mul]
      simp [natToBytes, bytesToNat, ih]

theorem natToBytes_lt_256 (n : Nat) : ∀ v, ∀ b ∈ natToBytes n v, b < 256 := by
  induction n with
  | zero => intro v b hb; simp [natToBytes] at hb
  | succ n ih =>
      intro v b hb
      simp only [natToBytes, List.mem_cons] at hb
      rcases hb with h | h
      · omega
      · exact ih _ _ h

theorem natToBytes_inj {n a b : Nat} (ha : a < 256 ^ n) (hb : b < 256 ^ n)
    (h : natToBytes n a = natToBytes n b) : a = b := by
  have h1 := bytesToNat_natToBytes n a
  have h2 := bytesToNat_natToBytes n b
  rw [h] at h1
  rw [h2] at h1
  rw [Nat.mod_eq_of_lt ha, Nat.mod_eq_of_lt hb] at h1
  omega

theorem getD_eq_getElem_of_lt (l : List Nat) (i : Nat) (h : i < l.length) :
    l.getD i 0 = l[i] := by
  rw [List.getD_eq_getElem?_getD, List.getElem?_eq_getElem h]
  rfl

theorem bytesToNat_set : ∀ (l : List Nat) (i v : Nat), i < l.length →
    bytesToNat (l.set i v) + l.getD i 0 * 256 ^ i = bytesToNat l + v * 256 ^ i := by
  intro l
  induction l with
  | nil => intro i v h; simp at h
  | cons b bs ih =>
      intro i v h
      cases i with
      | zero => simp [bytesToNat, List.set]; ring
      | succ i =>
          have hi : i < bs.length := by simpa using h
          have step := ih i v hi
          calc bytesToNat ((b :: bs).set (i + 1) v) + (b :: bs).getD (i + 1) 0 * 256 ^ (i + 1)
              = b + 256 * (bytesToNat (bs.set i v) + bs.getD i 0 * 256 ^ i) := by
                rw [pow_succ']
                simp [bytesToNat, List.set]
                ring
            _ = b + 256 * (bytesToNat bs + v * 256 ^ i) := by rw [step]
            _ = bytesToNat (b :: bs) + v * 256 ^ (i + 1) := by
                rw [pow_succ']
                simp [bytesToNat]
                ring

/-! ### Base64 transport

`bufferToBase64` / `base64ToBuffer` in `crypto.js` (and the analogous
helpers in the WebCrypto module) convert between byte buffers and base64
strings.  We model the string by its sequence of 6-bit groups, since the
base64 alphabet maps 6-bit values to characters bijectively. -/

/-- Base64 encoding: 3 input bytes become 4 six-bit groups; a trailing
1-byte (resp. 2-byte) block becomes 2 (resp. 3) groups. -/
def b64encode : List Nat → List Nat
  | [] => []
  | [b1] => [b1 / 4, b1 % 4 * 16]
  | [b1, b2] => [b1 / 4, b1 % 4 * 16 + b2 / 16, b2 % 16 * 4]
  | b1 :: b2 :: b3 :: rest =>
      b1 / 4 :: (b1 % 4 * 16 + b2 / 16) :: (b2 % 16 * 4 + b3 / 64) :: b3 % 64 :: b64encode rest

/-- Base64 decoding, inverse of `b64encode` on byte input. -/
def b64decode : List Nat → List Nat
  | [] => []
  | [_] => []
  | [s1, s2] => [s1 * 4 + s2 / 16]
  | [s1, s2, s3] => [s1 * 4 + s2 / 16, s2 % 16 * 16 + s3 / 4]
  | s1 :: s2 :: s3 :: s4 :: rest =>
      (s1 * 4 + s2 / 16) :: (s2 % 16 * 16 + s3 / 4) :: (s3 % 4 * 64 + s4) :: b64decode rest

theorem b64decode_b64encode : ∀ l : List Nat, (∀ b ∈ l, b < 256) →
    b64decode (b64encode l) = l
  | [] , _ => rfl
  | [b1], h => by
      have h1 : b1 < 256 := h b1 (by simp)
      simp [b64encode, b64decode]
      omega
  | [b1, b2], h => by
      have h1 : b1 < 256 := h b1 (by simp)
      have h2 : b2 < 256 := h b2 (by simp)
      simp [b64encode, b64decode]
      constructor
      · omega
      · omega
  | b1 :: b2 :: b3 :: rest, h => by
      have h1 : b1 < 256 := h b1 (by simp)
      have h2 : b2 < 256 := h b2 (by simp)
      have h3 : b3 < 256 := h b3 (by simp)
      have ih := b64decode_b64encode rest (fun b hb => h b (by simp [hb]))
      simp [b64encode, b64decode, ih]
      refine ⟨by omega, by omega, by omega⟩

/-! ### Interface model of AES-256-GCM -/

/-- Interface model of the AES-256 counter-mode keystream underlying
`aes-256-gcm`: a deterministic byte stream derived from (key, iv, counter).
The repository code treats the cipher core as opaque and relies only on
its determinism. -/
def ksByte (key iv : List Nat) (i : Nat) : Nat :=
  (bytesToNat key + 31 * bytesToNat iv + 131 * i) % 256

/-- Counter-mode XOR layer of GCM, starting at stream position `i`. -/
def ctrXor (key iv : List Nat) : Nat → List Nat → List Nat
  | _, [] => []
  | i, b :: bs => (b ^^^ ksByte key iv i) :: ctrXor key iv (i + 1) bs

theorem ctrXor_ctrXor (key iv : List Nat) : ∀ (i : Nat) (data : List Nat),
    ctrXor key iv i (ctrXor key iv i data) = data := by
  intro i data
  induction data generalizing i with
  | nil => rfl
  | cons b bs ih =>
      simp [ctrXor, ih, Nat.xor_assoc]

theorem length_ctrXor (key iv : List Nat) : ∀ (i : Nat) (data : List Nat),
    (ctrXor key iv i data).length = data.length := by
  intro i data
  induction data generalizing i with
  | nil => rfl
  | cons b bs ih => simp [ctrXor, ih]

theorem ctrXor_lt_256 (key iv : List Nat) : ∀ (i : Nat) (data : List Nat),
    (∀ b ∈ data, b < 256) → ∀ b ∈ ctrXor key iv i data, b < 256 := by
  intro i data
  induction data generalizing i with
  | nil => intro _ b hb; simp [ctrXor] at hb
  | cons c cs ih =>
      intro h b hb
      simp only [ctrXor, List.mem_cons] at hb
      rcases hb with hb | hb
      · subst hb
        exact Nat.xor_lt_two_pow (n := 8) (h c (by simp)) (Nat.mod_lt _ (by omega))
      · exact ih (i + 1) (fun x hx => h x (by simp [hx])) b hb

/-- Odd modulus of the authentication-tag residue (2^127 − 1). -/
def gcmP : Nat := 2 ^ 127 - 1

/-- Interface model of the GCM authentication tag as a natural number: a
deterministic keyed residue of (key, iv, ciphertext) modulo the odd
constant `gcmP`.  The `256 ^ c.length` factor places the keyed salt above
every ciphertext byte, mirroring GHASH's separation of the length block
from the data blocks. -/
def gcmTagNat (key iv c : List Nat) : Nat :=
  (bytesToNat c + 256 ^ c.length * (1 + bytesToNat key + 2 ^ 256 * bytesToNat iv)) % gcmP

/-- The 16-byte GCM authentication tag. -/
def gcmTag (key iv c : List Nat) : List Nat :=
  natToBytes 16 (gcmTagNat key iv c)

theorem gcmP_pos : 0 < gcmP := by decide

theorem gcmTagNat_lt (key iv c : List Nat) : gcmTagNat key iv c < gcmP :=
  Nat.mod_lt _ gcmP_pos

theorem length_gcmTag (key iv c : List Nat) : (gcmTag key iv c).length = 16 :=
  length_natToBytes 16 _

theorem gcmTag_lt_256 (key iv c : List Nat) : ∀ b ∈ gcmTag key iv c, b < 256 :=
  natToBytes_lt_256 16 _

/-- Changing one byte of the ciphertext changes the tag residue. -/
theorem gcmTagNat_set_ne (key iv c : List Nat) (i v : Nat) (hi : i < c.length)
    (hb : ∀ b ∈ c, b < 256) (hv : v < 256) (hne : v ≠ c.getD i 0) :
    gcmTagNat key iv (c.set i v) ≠ gcmTagNat key iv c := by
  intro htag
  have hu : c.getD i 0 < 256 := by
    rw [getD_eq_getElem_of_lt c i hi]
    exact hb _ (List.getElem_mem hi)
  set u := c.getD i 0 with hu_def
  have hset := bytesToNat_set c i v hi
  set A := bytesToNat (c.set i v) with hA
  set B := bytesToNat c with hB
  set S := 256 ^ c.length * (1 + bytesToNat key + 2 ^ 256 * bytesToNat iv) with hS
  have hlen : (c.set i v).length = c.length := List.length_set c i v
  have hmod : (A + S) % gcmP = (B + S) % gcmP := by
    have : gcmTagNat key iv (c.set i v) = (A + S) % gcmP := by
      simp only [gcmTagNat, hA, hS, hlen]
    rw [this] at htag
    exact htag
  have hcop : Nat.Coprime gcmP (256 ^ i) := by
    have : Nat.Coprime gcmP 256 := by decide
    exact Nat.Coprime.pow_right i this
  have hPbig : 256 < gcmP := by decide
  have hModEq : Nat.ModEq gcmP A B := by
    have h1 : Nat.ModEq gcmP (A + S) (B + S) := hmod
    exact Nat.ModEq.add_right_cancel' S h1
  rcases Nat.lt_or_ge u v with hcase | hcase
  · -- u < v : A = B + (v - u) * 256 ^ i
    have hd : 0 < v - u := by omega
    have hAB : A = B + (v - u) * 256 ^ i := by
      have : A + u * 256 ^ i = B + (u + (v - u)) * 256 ^ i := by
        rw [Nat.add_sub_cancel' (Nat.le_of_lt hcase)]
        exact hset
      rw [Nat.add_mul] at this
      omega
    have : Nat.ModEq gcmP (B + (v - u) * 256 ^ i) (B + 0) := by
      rw [Nat.add_zero]
      rw [← hAB]
      exact hModEq
    have hdvd : gcmP ∣ (v - u) * 256 ^ i :=
      (Nat.modEq_zero_iff_dvd).mp (Nat.ModEq.add_left_cancel' B this)
    have hdvd2 : gcmP ∣ (v - u) := Nat.Coprime.dvd_of_dvd_mul_right hcop hdvd
    have : v - u = 0 := Nat.eq_zero_of_dvd_of_lt hdvd2 (by omega)
    omega
  · -- v ≤ u, and v ≠ u, so v < u : B = A + (u - v) * 256 ^ i
    have hvu : v < u := by omega
    have hd : 0 < u - v := by omega
    have hAB : B = A + (u - v) * 256 ^ i := by
      have : A + (v + (u - v)) * 256 ^ i = B + v * 256 ^ i := by
        rw [Nat.add_sub_cancel' (Nat.le_of_lt hvu)]
        exact hset
      rw [Nat.add_mul] at this
      omega
    have : Nat.ModEq gcmP (A + (u - v) * 256 ^ i) (A + 0) := by
      rw [Nat.add_zero]
      rw [← hAB]
      exact hModEq.symm
    have hdvd : gcmP ∣ (u - v) * 256 ^ i :=
      (Nat.modEq_zero_iff_dvd).mp (Nat.ModEq.add_left_cancel' A this)
    have hdvd2 : gcmP ∣ (u - v) := Nat.Coprime.dvd_of_dvd_mul_right hcop hdvd
    have : u - v = 0 := Nat.eq_zero_of_dvd_of_lt hdvd2 (by omega)
    omega

/-- Changing one byte of the ciphertext changes the 16-byte tag. -/
theorem gcmTag_set_ne (key iv c : List Nat) (i v : Nat) (hi : i < c.length)
    (hb : ∀ b ∈ c, b < 256) (hv : v < 256) (hne : v ≠ c.getD i 0) :
    gcmTag key iv (c.set i v) ≠ gcmTag key iv c := by
  intro h
  have hbound : gcmP < 256 ^ 16 := by decide
  have h1 : gcmTagNat key iv (c.set i v) < 256 ^ 16 :=
    lt_trans (gcmTagNat_lt _ _ _) hbound
  have h2 : gcmTagNat key iv c < 256 ^ 16 := lt_trans (gcmTagNat_lt _ _ _) hbound
  exact gcmTagNat_set_ne key iv c i v hi hb hv hne (natToBytes_inj h1 h2 h)

/-! ### Single-bit flips -/

/-- Flip bit `j` of byte `i` of a byte list. -/
def flipBit (l : List Nat) (i j : Nat) : List Nat :=
  l.set i (l.getD i 0 ^^^ 2 ^ j)

theorem xor_two_pow_ne (x j : Nat) : x ^^^ 2 ^ j ≠ x := by
  intro h
  have := congrArg (Nat.testBit · j) h
  simp only [Nat.testBit_xor, Nat.testBit_two_pow_self] at this
  cases hx : x.testBit j <;> simp [hx] at this

theorem xor_two_pow_lt (x j : Nat) (hx : x < 256) (hj : j < 8) : x ^^^ 2 ^ j < 256 := by
  have h2 : (2 : Nat) ^ j < 2 ^ 8 := Nat.pow_lt_pow_right (by omega) hj
  exact Nat.xor_lt_two_pow (n := 8) hx h2

theorem flipBit_ne (l : List Nat) (i j : Nat) (hi : i < l.length) :
    flipBit l i j ≠ l := by
  intro h
  have hlen : i < (l.set i (l.getD i 0 ^^^ 2 ^ j)).length := by
    rw [List.length_set]; exact hi
  have := congrArg (fun t => t.getD i 0) h
  simp only [flipBit] at this
  rw [getD_eq_getElem_of_lt _ i hlen, List.getElem_set_self] at this
  exact xor_two_pow_ne _ j this

/-! ### `src/crypto/crypto.js` — Node crypto module (`cryptoModule`) -/

/-- Result shape of `cryptoModule.encryptWithAESGCM`:
`{ encryptedData, authTag, iv }`. -/
structure AESGCMEncryptResult where
  encryptedData : List Nat
  authTag : List Nat
  iv : List Nat
deriving DecidableEq

/-- `cryptoModule.encryptWithAESGCM(data, key, iv)`: creates an
`aes-256-gcm` cipher (which requires a 32-byte key and a nonempty IV and
throws otherwise), encrypts, and returns ciphertext, tag and the IV. -/
def encryptWithAESGCM (data key iv : List Nat) : Except String AESGCMEncryptResult :=
  if key.length = 32 ∧ iv.length ≠ 0 then
    let encryptedData := ctrXor key iv 0 data
    .ok { encryptedData := encryptedData, authTag := gcmTag key iv encryptedData, iv := iv }
  else .error "AES-GCM encryption failed: Invalid key or IV length"

/-- `cryptoModule.decryptWithAESGCM(encryptedData, key, iv, authTag)`:
creates the decipher, sets the expected tag, and decrypts; `final()`
verifies the tag and throws on mismatch, in which case the `catch` block
rethrows and no plaintext is returned. -/
def decryptWithAESGCM (encryptedData key iv authTag : List Nat) :
    Except String (List Nat) :=
  if key.length = 32 ∧ iv.length ≠ 0 then
    if authTag = gcmTag key iv encryptedData then
      .ok (ctrXor key iv 0 encryptedData)
    else
      .error "AES-GCM decryption failed (authentication may have failed): Unsupported state or unable to authenticate data"
  else .error "AES-GCM decryption failed (authentication may have failed): Invalid key or IV length"

/-- An RSA public key, identified by the id of the key pair it belongs to
(`generateRSAKeyPair` returns a matching pair). -/
structure RSAPublicKey where
  pairId : Nat
deriving DecidableEq

/-- An RSA private key, identified by the id of the key pair it belongs to. -/
structure RSAPrivateKey where
  pairId : Nat
deriving DecidableEq

/-- `cryptoModule.generateRSAKeyPair()`: a fresh matching pair; the
entropy that selects the pair is the explicit `seed` argument. -/
def generateRSAKeyPair (seed : Nat) : RSAPublicKey × RSAPrivateKey :=
  ({ pairId := seed % 2 ^ 128 }, { pairId := seed % 2 ^ 128 })

/-- Maximum message length for RSA-OAEP under a 2048-bit modulus. -/
def rsaOaepMaxMessage : Nat := 214

/-- `cryptoModule.wrapKeyWithRSA(aesKey, publicKeyPem)`: RSA-OAEP
encryption of the key bytes under the public key.  Ideal interface model:
the blob records the wrapping pair's identifier followed by the payload;
`publicEncrypt` throws when the message exceeds the OAEP capacity. -/
def wrapKeyWithRSA (aesKey : List Nat) (pub : RSAPublicKey) : Except String (List Nat) :=
  if aesKey.length ≤ rsaOaepMaxMessage then
    .ok (natToBytes 16 pub.pairId ++ aesKey)
  else .error "RSA key wrapping failed: data too large for key size"

/-- `cryptoModule.unwrapKeyWithRSA(wrappedKey, privateKeyPem)`: RSA-OAEP
decryption.  The OAEP integrity check rejects a blob not produced for this
private key's pair; undersized input is rejected before the padding check.
Node surfaces the distinct OpenSSL causes inside `error.message`, and the
module's `catch` block embeds them in the rethrown message. -/
def unwrapKeyWithRSA (wrappedKey : List Nat) (priv : RSAPrivateKey) :
    Except String (List Nat) :=
  if wrappedKey.length < 16 then
    .error "RSA key unwrapping failed: data too small for key size"
  else if bytesToNat (wrappedKey.take 16) = priv.pairId then
    .ok (wrappedKey.drop 16)
  else
    .error "RSA key unwrapping failed: oaep decoding error"

/-! ### `kms-server/src/crypto.ts` (`src/unnamed/part_001`) — demo KMS cipher -/

/-- Result shape of the kms-server `encrypt`. -/
structure KmsEncryptResult where
  key : List Nat
  iv : List Nat
  tag : List Nat
  encrypted : List Nat
deriving DecidableEq

/-- `encrypt(buffer)` of `kms-server/src/crypto.ts`: encrypts a buffer
with a fresh 32-byte key and 12-byte IV; the fresh random values produced
by `crypto.randomBytes` are the explicit `key`/`iv` arguments here. -/
def kmsEncrypt (key iv buffer : List Nat) : KmsEncryptResult :=
  let encrypted := ctrXor key iv 0 buffer
  { key := key, iv := iv, tag := gcmTag key iv encrypted, encrypted := encrypted }

/-- `decrypt(encrypted, key, iv, tag)` of `kms-server/src/crypto.ts`. -/
def kmsDecrypt (encrypted key iv tag : List Nat) : Except String (List Nat) :=
  if key.length = 32 ∧ iv.length ≠ 0 then
    if tag = gcmTag key iv encrypted then
      .ok (ctrXor key iv 0 encrypted)
    else
      .error "Unsupported state or unable to authenticate data"
  else .error "Invalid key or IV length"

/-- Whether an `Except` computation succeeded. -/
def isOkE {ε α : Type} : Except ε α → Bool
  | .ok _ => true
  | .error _ => false

instance exceptDecEq {ε α : Type} [DecidableEq ε] [DecidableEq α] :
    DecidableEq (Except ε α) := fun a b =>
  match a, b with
  | .ok x, .ok y =>
      match decEq x y with
      | isTrue h => isTrue (by rw [h])
      | isFalse h => isFalse (fun hc => by cases hc; exact h rfl)
  | .error x, .error y =>
      match decEq x y with
      | isTrue h => isTrue (by rw [h])
      | isFalse h => isFalse (fun hc => by cases hc; exact h rfl)
  | .ok _, .error _ => isFalse (fun hc => by cases hc)
  | .error _, .ok _ => isFalse (fun hc => by cases hc)

/-! ### `kms-server/src/store.ts` — in-memory record store -/

/-- The stored record `{ key, iv, tag }`. -/
structure KmsStoreRec where
  key : List Nat
  iv : List Nat
  tag : List Nat
deriving DecidableEq

/-- `save(rec)`: inserts the record under a fresh `randomUUID()` and
returns the id; the fresh id is the explicit `freshId` argument. -/
def storeSave (rec : KmsStoreRec) (freshId : Nat) (db : List (Nat × KmsStoreRec)) :
    Nat × List (Nat × KmsStoreRec) :=
  (freshId, (freshId, rec) :: db)

/-- `get(id)`. -/
def storeGet (id : Nat) (db : List (Nat × KmsStoreRec)) : Option KmsStoreRec :=
  (db.find? (fun e => e.1 == id)).map (fun e => e.2)

/-! ### `kms-server/src/index.ts` (`src/unnamed/part_001`) — demo KMS endpoints -/

/-- Response of `POST /encrypt` (all byte values base64-encoded). -/
structure KmsEncryptResponse where
  keyId : Nat
  iv : List Nat
  tag : List Nat
  cipher : List Nat
deriving DecidableEq

/-- `POST /encrypt`: encrypts the uploaded file with a fresh key and IV,
saves `{ key, iv, tag }` in the store, and returns the base64 payload. -/
def kmsEncryptHandler (key iv file : List Nat) (freshId : Nat)
    (db : List (Nat × KmsStoreRec)) : KmsEncryptResponse × List (Nat × KmsStoreRec) :=
  let r := kmsEncrypt key iv file
  let saved := storeSave { key := r.key, iv := r.iv, tag := r.tag } freshId db
  ({ keyId := saved.1, iv := b64encode r.iv, tag := b64encode r.tag,
     cipher := b64encode r.encrypted }, saved.2)

/-- `GET /key/:keyId`: returns the raw AES key as base64 ("demo only!"). -/
def kmsKeyHandler (keyId : Nat) (db : List (Nat × KmsStoreRec)) : Option (List Nat) :=
  (storeGet keyId db).map (fun rec => b64encode rec.key)

/-- `POST /decrypt`: fetches the key record by id and decrypts the
base64 payload. -/
def kmsDecryptHandler (keyId : Nat) (iv tag cipher : List Nat)
    (db : List (Nat × KmsStoreRec)) : Except String (List Nat) :=
  match storeGet keyId db with
  | none => .error "key not found"
  | some rec => kmsDecrypt (b64decode cipher) rec.key (b64decode iv) (b64decode tag)

/-! ### `src/unnamed/part_008` — WebCrypto module (`webCryptoModule`) -/

/-- `crypto.subtle.encrypt({name: 'AES-GCM', iv, tagLength: 128}, key, data)`:
WebCrypto returns ciphertext with the 16-byte tag appended. -/
def subtleEncrypt (key iv data : List Nat) : List Nat :=
  ctrXor key iv 0 data ++ gcmTag key iv (ctrXor key iv 0 data)

/-- `crypto.subtle.decrypt`: splits off the final 16 bytes as the tag,
verifies it, and rejects (throws `OperationError`) on mismatch. -/
def subtleDecrypt (key iv combined : List Nat) : Except String (List Nat) :=
  if 16 ≤ combined.length ∧
      combined.drop (combined.length - 16) =
        gcmTag key iv (combined.take (combined.length - 16)) then
    .ok (ctrXor key iv 0 (combined.take (combined.length - 16)))
  else
    .error "AES-GCM decryption failed (authentication may have failed): OperationError"

/-- Result shape of `webCryptoModule.encryptWithAESGCM`. -/
structure WebEncryptResult where
  encryptedData : List Nat
  authTag : List Nat
  iv : List Nat
deriving DecidableEq

/-- `webCryptoModule.encryptWithAESGCM(data, key, iv)`: calls
`subtle.encrypt` and splits the combined output — ciphertext is everything
before the last 16 bytes, the auth tag is the last 16 bytes. -/
def webEncryptWithAESGCM (data key iv : List Nat) : WebEncryptResult :=
  let combined := subtleEncrypt key iv data
  let encryptedLength := combined.length - 16
  { encryptedData := combined.take encryptedLength,
    authTag := combined.drop encryptedLength, iv := iv }

/-- `webCryptoModule.decryptWithAESGCM(encryptedData, key, iv, authTag)`:
re-concatenates ciphertext and tag and calls `subtle.decrypt`. -/
def webDecryptWithAESGCM (encryptedData key iv authTag : List Nat) :
    Except String (List Nat) :=
  subtleDecrypt key iv (encryptedData ++ authTag)

/-! ### `src/unnamed/part_007` — `fileEncryptionAPI` -/

/-- The persisted `encryptionMetadata`: base64 values plus algorithm tags. -/
structure EncryptionMetadata where
  iv : List Nat
  tag : List Nat
  encryptedKey : List Nat
  algorithm : String
  keyEncryption : String
deriving DecidableEq

/-- `fileEncryptionAPI.encryptFile(fileData, publicKeyPem)`: generates an
AES key and IV (the explicit `aesKey`/`ivBytes` arguments), encrypts the
file, wraps the AES key under the RSA public key, and returns ciphertext
plus metadata. -/
def encryptFile (aesKey ivBytes fileData : List Nat) (pub : RSAPublicKey) :
    Except String (List Nat × EncryptionMetadata) :=
  match encryptWithAESGCM fileData aesKey ivBytes with
  | .error m => .error ("File encryption failed: " ++ m)
  | .ok enc =>
      match wrapKeyWithRSA aesKey pub with
      | .error m => .error ("File encryption failed: " ++ m)
      | .ok wrapped =>
          .ok (enc.encryptedData,
            { iv := b64encode ivBytes, tag := b64encode enc.authTag,
              encryptedKey := b64encode wrapped,
              algorithm := "AES-256-GCM", keyEncryption := "RSA-OAEP" })

/-- `fileEncryptionAPI.decryptFile(encryptedData, metadata, privateKeyPem)`:
unwraps the AES key with the RSA private key, then decrypts the file. -/
def decryptFile (encryptedData : List Nat) (m : EncryptionMetadata)
    (priv : RSAPrivateKey) : Except String (List Nat) :=
  match unwrapKeyWithRSA (b64decode m.encryptedKey) priv with
  | .error msg => .error ("File decryption failed: " ++ msg)
  | .ok aesKey =>
      match decryptWithAESGCM encryptedData aesKey (b64decode m.iv) (b64decode m.tag) with
      | .error msg => .error ("File decryption failed: " ++ msg)
      | .ok d => .ok d

/-! ### `src/crypto/kms-integration.js` — `KMSIntegrationService.shareFileAccess` -/

/-- `shareFileAccess(fileId, targetUserId, permission, encryptionMetadata)`:
resolves the target's public key (the explicit `targetPublicKey` argument,
fetched over the network in the source), unwraps the file's AES key with
the current user's private key, rewraps it under the target's public key,
and registers new metadata that carries `iv`, `tag`, `algorithm` and
`keyEncryption` over unchanged.  The file ciphertext is not an input: the
function never touches it. -/
def shareFileAccess (targetPublicKey : RSAPublicKey) (userPrivateKey : RSAPrivateKey)
    (encryptionMetadata : EncryptionMetadata) : Except String EncryptionMetadata :=
  match unwrapKeyWithRSA (b64decode encryptionMetadata.encryptedKey) userPrivateKey with
  | .error m => .error ("Failed to share file access: " ++ m)
  | .ok aesKey =>
      match wrapKeyWithRSA aesKey targetPublicKey with
      | .error m => .error ("Failed to share file access: " ++ m)
      | .ok reWrappedKey =>
          .ok { iv := encryptionMetadata.iv, tag := encryptionMetadata.tag,
                encryptedKey := b64encode reWrappedKey,
                algorithm := encryptionMetadata.algorithm,
                keyEncryption := encryptionMetadata.keyEncryption }

/-! ### `src/index.js` (second half) — key registry handler (`keyDB`) -/

/-- `KeyRecord = { wrappedKey, roles }` (the base64 wrapped key and the
roles allowed to fetch it). -/
structure KeyRecord where
  wrappedKey : List Nat
  roles : List String
deriving DecidableEq

/-- The module-level `keyDB : Map` mapping `fileId` to its record. -/
abbrev KeyDB : Type := String → Option KeyRecord

/-- `register` action: `keyDB.set(fileId, { wrappedKey, roles })`. -/
def keyDBRegister (fileId : String) (rec : KeyRecord) (db : KeyDB) : KeyDB :=
  fun x => if x = fileId then some rec else db x

/-- `unwrap` action: 404 if no record for the file, 403 if the caller's
role is not listed, otherwise the wrapped key. -/
def keyDBUnwrapHandler (fileId role : String) (db : KeyDB) :
    Except (Nat × String) (List Nat) :=
  match db fileId with
  | none => .error (404, "missing key")
  | some rec => if role ∈ rec.roles then .ok rec.wrappedKey else .error (403, "role denied")

/-! ### `kms-pki-server/index.ts` — certificate authority and trusted-KMS endpoints -/

/-- The instant at which a request is handled: the `Date.now()`
epoch-millisecond value together with its calendar year and the position
inside the year (`setFullYear` changes the year and keeps the rest). -/
structure PkiInstant where
  ms : Nat
  year : Nat
  subYear : Nat
deriving DecidableEq

/-- A parsed certification request: subject attributes, embedded public
key (if any), and the key pair that produced the self-signature. -/
structure CertificationRequest where
  subject : String
  publicKey : Option Nat
  signedBy : Option Nat
deriving DecidableEq

/-- forge's `csr.verify()`: checks the self-signature against the CSR's
own embedded public key (it cannot succeed without one). -/
def csrVerify (csr : CertificationRequest) : Bool :=
  match csr.publicKey, csr.signedBy with
  | some pk, some s => s == pk
  | _, _ => false

/-- A forge certificate.  `serialNumber` is `Date.now().toString()` in the
source — the decimal string of the millisecond timestamp, modelled by the
number itself (decimal rendering is injective). -/
structure Certificate where
  serialNumber : Nat
  publicKey : Nat
  subject : String
  issuer : String
  notBeforeYear : Nat
  notBeforeSub : Nat
  notAfterYear : Nat
  notAfterSub : Nat
  isCA : Bool
  sigSignerId : Option Nat
  sigDigest : Nat
deriving DecidableEq

/-- Deterministic encoding of a string for digest purposes. -/
def strCode (s : String) : Nat := bytesToNat (s.toList.map Char.toNat)

/-- Digest of a certificate's to-be-signed fields (everything except the
signature fields). -/
def certDigest (c : Certificate) : Nat :=
  c.serialNumber + 3 * c.publicKey + 5 * strCode c.subject + 7 * strCode c.issuer +
    11 * c.notBeforeYear + 13 * c.notBeforeSub + 17 * c.notAfterYear +
    19 * c.notAfterSub + (if c.isCA then 23 else 0)

/-- `cert.sign(caPrivateKey, sha256)`: attach a signature binding the
signer's key pair to the digest of the to-be-signed fields. -/
def certSign (caKeyId : Nat) (c : Certificate) : Certificate :=
  { c with sigSignerId := some caKeyId, sigDigest := certDigest c }

/-- Verification of a certificate against the CA public key: the
signature must come from the CA pair and match the digest of the fields. -/
def certVerify (caKeyId : Nat) (c : Certificate) : Bool :=
  c.sigSignerId == some caKeyId && c.sigDigest == certDigest c

/-- `POST /api/pki/register`: parse the CSR, reject with 400 if
`csr.verify()` fails or the public key is missing, otherwise issue a leaf
certificate — serial `Date.now().toString()`, subject from the CSR,
issuer from the CA certificate, validity from now until the same instant
next year, `basicConstraints cA: false`, signed with the CA private key. -/
def pkiRegisterHandler (now : PkiInstant) (caKeyId : Nat) (caSubject : String)
    (csr : CertificationRequest) : Except (Nat × String) Certificate :=
  if ¬ csrVerify csr then .error (400, "CSR verification failed")
  else
    match csr.publicKey with
    | none => .error (400, "CSR missing publicKey")
    | some pk =>
        .ok (certSign caKeyId
          { serialNumber := now.ms, publicKey := pk, subject := csr.subject,
            issuer := caSubject,
            notBeforeYear := now.year, notBeforeSub := now.subYear,
            notAfterYear := now.year + 1, notAfterSub := now.subYear,
            isCA := false, sigSignerId := none, sigDigest := 0 })

/-- Whether a register response is a 400 rejection. -/
def isReject400 (r : Except (Nat × String) Certificate) : Bool :=
  match r with
  | .error (400, _) => true
  | _ => false

/-- Response shape of `POST /api/kms/unwrap`. -/
structure KmsUnwrapResponse where
  status : Nat
  error : Option String
  sessionKey : Option (List Nat)
deriving DecidableEq

/-- `POST /api/kms/unwrap`: base64-decode the wrapped key and decrypt with
the CA private key; the `catch` block answers every failure with the same
`403 { error: 'Unwrap failed' }` response. -/
def pkiUnwrapHandler (caPriv : RSAPrivateKey) (wrapped64 : List Nat) : KmsUnwrapResponse :=
  let w := b64decode wrapped64
  if w.length < 16 ∨ bytesToNat (w.take 16) ≠ caPriv.pairId then
    { status := 403, error := some "Unwrap failed", sessionKey := none }
  else
    { status := 200, error := none, sessionKey := some (b64encode (w.drop 16)) }

/-! ### Claim theorems -/

theorem except_bind_ok {ε α β : Type} (a : α) (f : α → Except ε β) :
    Except.bind (Except.ok a) f = f a := rfl

/-- C1: For every plaintext P, every 32-byte key K and every 12-byte nonce
N, decrypting the (ciphertext, authTag) pair produced by
`encryptWithAESGCM(P, K, N)` with `decryptWithAESGCM` under the same K and
N returns exactly P; likewise for the kms-server encrypt/decrypt pair. -/
theorem aesgcm_round_trip (data key iv : List Nat)
    (hkey : key.length = 32) (hiv : iv.length = 12) :
    (encryptWithAESGCM data key iv).bind
        (fun r => decryptWithAESGCM r.encryptedData key iv r.authTag) = .ok data ∧
    kmsDecrypt (kmsEncrypt key iv data).encrypted (kmsEncrypt key iv data).key
        (kmsEncrypt key iv data).iv (kmsEncrypt key iv data).tag = .ok data := by
  have hcond : key.length = 32 ∧ iv.length ≠ 0 := ⟨hkey, by omega⟩
  constructor
  · simp [encryptWithAESGCM, decryptWithAESGCM, hcond, Except.bind, ctrXor_ctrXor]
  · simp [kmsEncrypt, kmsDecrypt, hcond, ctrXor_ctrXor]

/-- Witness for C1 at a concrete key, nonce and plaintext. -/
theorem aesgcm_round_trip_witness :
    (List.replicate 32 7).length = 32 ∧ (List.replicate 12 3).length = 12 ∧
    (encryptWithAESGCM [104, 105] (List.replicate 32 7) (List.replicate 12 3)).bind
        (fun r => decryptWithAESGCM r.encryptedData (List.replicate 32 7)
          (List.replicate 12 3) r.authTag) = .ok [104, 105] ∧
    kmsDecrypt (kmsEncrypt (List.replicate 32 7) (List.replicate 12 3) [104, 105]).encrypted
        (kmsEncrypt (List.replicate 32 7) (List.replicate 12 3) [104, 105]).key
        (kmsEncrypt (List.replicate 32 7) (List.replicate 12 3) [104, 105]).iv
        (kmsEncrypt (List.replicate 32 7) (List.replicate 12 3) [104, 105]).tag =
      .ok [104, 105] :=
  ⟨by decide, by decide,
    (aesgcm_round_trip [104, 105] (List.replicate 32 7) (List.replicate 12 3)
      (by decide) (by decide)).1,
    (aesgcm_round_trip [104, 105] (List.replicate 32 7) (List.replicate 12 3)
      (by decide) (by decide)).2⟩

/-- The authentication-failure message thrown by
`cryptoModule.decryptWithAESGCM`. -/
def gcmAuthFailMsg : String :=
  "AES-GCM decryption failed (authentication may have failed): Unsupported state or unable to authenticate data"

/-- C2: whenever authentication fails `decryptWithAESGCM` returns an error
and no plaintext at all — and authentication does fail for every
single-bit flip of the tag or of the ciphertext of a valid encryption. -/
theorem decrypt_fail_closed_tamper :
    (∀ encryptedData key iv tag : List Nat, tag ≠ gcmTag key iv encryptedData →
        isOkE (decryptWithAESGCM encryptedData key iv tag) = false) ∧
    (∀ data key iv : List Nat, key.length = 32 → iv.length = 12 →
      ∀ i j : Nat, i < 16 → j < 8 →
        decryptWithAESGCM (ctrXor key iv 0 data) key iv
            (flipBit (gcmTag key iv (ctrXor key iv 0 data)) i j) = .error gcmAuthFailMsg) ∧
    (∀ data key iv : List Nat, (∀ b ∈ data, b < 256) →
      key.length = 32 → iv.length = 12 →
      ∀ i j : Nat, i < data.length → j < 8 →
        decryptWithAESGCM (flipBit (ctrXor key iv 0 data) i j) key iv
            (gcmTag key iv (ctrXor key iv 0 data)) = .error gcmAuthFailMsg) := by
  refine ⟨?_, ?_, ?_⟩
  · intro encryptedData key iv tag htag
    unfold decryptWithAESGCM
    split
    · simp [htag, isOkE]
    · simp [isOkE]
  · intro data key iv hkey hiv i j hi hj
    have hcond : key.length = 32 ∧ iv.length ≠ 0 := ⟨hkey, by omega⟩
    have hlen : i < (gcmTag key iv (ctrXor key iv 0 data)).length := by
      rw [length_gcmTag]; exact hi
    have hne : flipBit (gcmTag key iv (ctrXor key iv 0 data)) i j ≠
        gcmTag key iv (ctrXor key iv 0 data) := flipBit_ne _ i j hlen
    simp [decryptWithAESGCM, hcond, hne, gcmAuthFailMsg]
  · intro data key iv hdata hkey hiv i j hi hj
    have hcond : key.length = 32 ∧ iv.length ≠ 0 := ⟨hkey, by omega⟩
    set c := ctrXor key iv 0 data with hc_def
    have hclen : i < c.length := by rw [hc_def, length_ctrXor]; exact hi
    have hcb : ∀ b ∈ c, b < 256 := ctrXor_lt_256 key iv 0 data hdata
    have hvlt : c.getD i 0 ^^^ 2 ^ j < 256 := by
      apply xor_two_pow_lt _ _ _ hj
      rw [getD_eq_getElem_of_lt c i hclen]
      exact hcb _ (List.getElem_mem hclen)
    have htagne : gcmTag key iv (flipBit c i j) ≠ gcmTag key iv c := by
      apply gcmTag_set_ne key iv c i _ hclen hcb hvlt
      exact xor_two_pow_ne _ j
    have hne : gcmTag key iv c ≠ gcmTag key iv (flipBit c i j) := fun h => htagne h.symm
    simp [decryptWithAESGCM, hcond, hne, gcmAuthFailMsg]

/-- Witness for C2: concrete instances of all three conjuncts. -/
theorem decrypt_fail_closed_tamper_witness :
    (([] : List Nat) ≠ gcmTag [] [] [1]) ∧
    isOkE (decryptWithAESGCM [1] [] [] []) = false ∧
    decryptWithAESGCM (ctrXor (List.replicate 32 7) (List.replicate 12 3) 0 [104, 105])
        (List.replicate 32 7) (List.replicate 12 3)
        (flipBit (gcmTag (List.replicate 32 7) (List.replicate 12 3)
          (ctrXor (List.replicate 32 7) (List.replicate 12 3) 0 [104, 105])) 0 0) =
      .error gcmAuthFailMsg ∧
    decryptWithAESGCM
        (flipBit (ctrXor (List.replicate 32 7) (List.replicate 12 3) 0 [104, 105]) 0 0)
        (List.replicate 32 7) (List.replicate 12 3)
        (gcmTag (List.replicate 32 7) (List.replicate 12 3)
          (ctrXor (List.replicate 32 7) (List.replicate 12 3) 0 [104, 105])) =
      .error gcmAuthFailMsg :=
  ⟨by decide,
    decrypt_fail_closed_tamper.1 [1] [] [] [] (by decide),
    decrypt_fail_closed_tamper.2.1 [104, 105] (List.replicate 32 7) (List.replicate 12 3)
      (by decide) (by decide) 0 0 (by decide) (by decide),
    decrypt_fail_closed_tamper.2.2 [104, 105] (List.replicate 32 7) (List.replicate 12 3)
      (by decide) (by decide) (by decide) 0 0 (by decide) (by decide)⟩

/-- The identifier block of a wrapped blob decodes to the wrapping pair id. -/
theorem wrapped_take_id (aesKey : List Nat) (pid : Nat) (hrange : pid < 2 ^ 128) :
    bytesToNat ((natToBytes 16 pid ++ aesKey).take 16) = pid := by
  have hlen16 : (natToBytes 16 pid).length = 16 := length_natToBytes 16 _
  rw [List.take_left' hlen16, bytesToNat_natToBytes]
  have h16 : (256 : Nat) ^ 16 = 2 ^ 128 := by norm_num
  rw [h16]
  exact Nat.mod_eq_of_lt hrange

/-- Unwrapping a wrapped blob with the matching private key recovers the
payload. -/
theorem unwrap_wrap (aesKey : List Nat) (pub : RSAPublicKey) (priv : RSAPrivateKey)
    (hmatch : priv.pairId = pub.pairId) (hrange : pub.pairId < 2 ^ 128) :
    unwrapKeyWithRSA (natToBytes 16 pub.pairId ++ aesKey) priv = .ok aesKey := by
  have hlen16 : (natToBytes 16 pub.pairId).length = 16 := length_natToBytes 16 _
  have hfull : (natToBytes 16 pub.pairId ++ aesKey).length = 16 + aesKey.length := by
    simp [hlen16]
  have hnotlt : ¬ (natToBytes 16 pub.pairId ++ aesKey).length < 16 := by omega
  have hok : bytesToNat ((natToBytes 16 pub.pairId ++ aesKey).take 16) = priv.pairId := by
    rw [wrapped_take_id aesKey pub.pairId hrange, hmatch]
  unfold unwrapKeyWithRSA
  rw [if_neg hnotlt, if_pos hok, List.drop_left' hlen16]

/-- Unwrapping with a mismatched private key fails with the OAEP error. -/
theorem unwrap_mismatch (aesKey : List Nat) (pub : RSAPublicKey) (priv2 : RSAPrivateKey)
    (hmis : priv2.pairId ≠ pub.pairId) (hrange : pub.pairId < 2 ^ 128) :
    unwrapKeyWithRSA (natToBytes 16 pub.pairId ++ aesKey) priv2 =
      .error "RSA key unwrapping failed: oaep decoding error" := by
  have hlen16 : (natToBytes 16 pub.pairId).length = 16 := length_natToBytes 16 _
  have hfull : (natToBytes 16 pub.pairId ++ aesKey).length = 16 + aesKey.length := by
    simp [hlen16]
  have hnotlt : ¬ (natToBytes 16 pub.pairId ++ aesKey).length < 16 := by omega
  have hbad : ¬ bytesToNat ((natToBytes 16 pub.pairId ++ aesKey).take 16) = priv2.pairId := by
    rw [wrapped_take_id aesKey pub.pairId hrange]
    exact fun h => hmis h.symm
  unfold unwrapKeyWithRSA
  rw [if_neg hnotlt, if_neg hbad]

/-- A wrapped blob consists of bytes when the payload does. -/
theorem wrap_bytes_lt (aesKey : List Nat) (pid : Nat) (hk : ∀ b ∈ aesKey, b < 256) :
    ∀ b ∈ natToBytes 16 pid ++ aesKey, b < 256 := by
  intro b hb
  rcases List.mem_append.mp hb with h | h
  · exact natToBytes_lt_256 16 _ b h
  · exact hk b h

/-- C3: for a matching RSA key pair, unwrap(wrap(K, pub), priv) = K; a
mismatched private key yields an unwrap error, never a wrong key. -/
theorem rsa_wrap_round_trip (aesKey : List Nat) (pub : RSAPublicKey)
    (priv priv2 : RSAPrivateKey)
    (hmatch : priv.pairId = pub.pairId) (hrange : pub.pairId < 2 ^ 128)
    (hlen : aesKey.length ≤ rsaOaepMaxMessage)
    (hmis : priv2.pairId ≠ pub.pairId) :
    (wrapKeyWithRSA aesKey pub).bind (fun w => unwrapKeyWithRSA w priv) = .ok aesKey ∧
    (wrapKeyWithRSA aesKey pub).bind (fun w => unwrapKeyWithRSA w priv2) =
      .error "RSA key unwrapping failed: oaep decoding error" := by
  have hwrapped : wrapKeyWithRSA aesKey pub = .ok (natToBytes 16 pub.pairId ++ aesKey) := by
    simp [wrapKeyWithRSA, hlen]
  constructor
  · rw [hwrapped, except_bind_ok]
    exact unwrap_wrap aesKey pub priv hmatch hrange
  · rw [hwrapped, except_bind_ok]
    exact unwrap_mismatch aesKey pub priv2 hmis hrange

/-- Witness for C3 at a concrete key and pair of key pairs. -/
theorem rsa_wrap_round_trip_witness :
    ((5 : Nat) = 5) ∧ ((5 : Nat) < 2 ^ 128) ∧ ((6 : Nat) ≠ 5) ∧
    (wrapKeyWithRSA (List.replicate 32 9) ⟨5⟩).bind
        (fun w => unwrapKeyWithRSA w ⟨5⟩) = .ok (List.replicate 32 9) ∧
    (wrapKeyWithRSA (List.replicate 32 9) ⟨5⟩).bind
        (fun w => unwrapKeyWithRSA w ⟨6⟩) =
      .error "RSA key unwrapping failed: oaep decoding error" :=
  ⟨rfl, by decide, by decide,
    (rsa_wrap_round_trip (List.replicate 32 9) ⟨5⟩ ⟨5⟩ ⟨6⟩ rfl (by decide)
      (by decide) (by decide)).1,
    (rsa_wrap_round_trip (List.replicate 32 9) ⟨5⟩ ⟨5⟩ ⟨6⟩ rfl (by decide)
      (by decide) (by decide)).2⟩

/-- C4: after `shareFileAccess`, the newly registered metadata's
`encryptedKey` unwraps under the target's private key to the same content
key, the iv, tag, algorithm and keyEncryption fields are carried over
unchanged, and decrypting the untouched original ciphertext with the new
metadata under the target's private key returns the original plaintext. -/
theorem share_file_access_correct (aesKey ivBytes data : List Nat)
    (ownerPub : RSAPublicKey) (ownerPriv : RSAPrivateKey)
    (targetPub : RSAPublicKey) (targetPriv : RSAPrivateKey)
    (hop : ownerPriv.pairId = ownerPub.pairId) (hor : ownerPub.pairId < 2 ^ 128)
    (htp : targetPriv.pairId = targetPub.pairId) (htr : targetPub.pairId < 2 ^ 128)
    (hkey32 : aesKey.length = 32) (hkeyB : ∀ b ∈ aesKey, b < 256)
    (hiv12 : ivBytes.length = 12) (hivB : ∀ b ∈ ivBytes, b < 256) :
    ∀ C md, encryptFile aesKey ivBytes data ownerPub = .ok (C, md) →
      shareFileAccess targetPub ownerPriv md =
        .ok { iv := md.iv, tag := md.tag,
              encryptedKey := b64encode (natToBytes 16 targetPub.pairId ++ aesKey),
              algorithm := md.algorithm, keyEncryption := md.keyEncryption } ∧
      unwrapKeyWithRSA (b64decode (b64encode (natToBytes 16 targetPub.pairId ++ aesKey)))
          targetPriv = .ok aesKey ∧
      decryptFile C
        { iv := md.iv, tag := md.tag,
          encryptedKey := b64encode (natToBytes 16 targetPub.pairId ++ aesKey),
          algorithm := md.algorithm, keyEncryption := md.keyEncryption }
        targetPriv = .ok data := by
  intro C md henc
  -- evaluate the encryption flow
  have hcond : aesKey.length = 32 ∧ ivBytes.length ≠ 0 := ⟨hkey32, by omega⟩
  have hencAES : encryptWithAESGCM data aesKey ivBytes =
      .ok { encryptedData := ctrXor aesKey ivBytes 0 data,
            authTag := gcmTag aesKey ivBytes (ctrXor aesKey ivBytes 0 data),
            iv := ivBytes } := by
    simp [encryptWithAESGCM, hcond]
  have hwrapOwner : wrapKeyWithRSA aesKey ownerPub =
      .ok (natToBytes 16 ownerPub.pairId ++ aesKey) := by
    simp [wrapKeyWithRSA, rsaOaepMaxMessage, hkey32]
  have hencFile : encryptFile aesKey ivBytes data ownerPub =
      .ok (ctrXor aesKey ivBytes 0 data,
        { iv := b64encode ivBytes,
          tag := b64encode (gcmTag aesKey ivBytes (ctrXor aesKey ivBytes 0 data)),
          encryptedKey := b64encode (natToBytes 16 ownerPub.pairId ++ aesKey),
          algorithm := "AES-256-GCM", keyEncryption := "RSA-OAEP" }) := by
    unfold encryptFile
    rw [hencAES, hwrapOwner]
  rw [hencFile] at henc
  have hC : C = ctrXor aesKey ivBytes 0 data := by
    cases henc
    rfl
  have hmd : md =
      { iv := b64encode ivBytes,
        tag := b64encode (gcmTag aesKey ivBytes (ctrXor aesKey ivBytes 0 data)),
        encryptedKey := b64encode (natToBytes 16 ownerPub.pairId ++ aesKey),
        algorithm := "AES-256-GCM", keyEncryption := "RSA-OAEP" } := by
    cases henc
    rfl
  subst hC
  subst hmd
  -- the owner-side wrapped blob survives base64 transport
  have hb64owner : b64decode (b64encode (natToBytes 16 ownerPub.pairId ++ aesKey)) =
      natToBytes 16 ownerPub.pairId ++ aesKey :=
    b64decode_b64encode _ (wrap_bytes_lt aesKey ownerPub.pairId hkeyB)
  have hb64target : b64decode (b64encode (natToBytes 16 targetPub.pairId ++ aesKey)) =
      natToBytes 16 targetPub.pairId ++ aesKey :=
    b64decode_b64encode _ (wrap_bytes_lt aesKey targetPub.pairId hkeyB)
  have hunwrapOwner : unwrapKeyWithRSA
      (b64decode (b64encode (natToBytes 16 ownerPub.pairId ++ aesKey))) ownerPriv =
      .ok aesKey := by
    rw [hb64owner]
    exact unwrap_wrap aesKey ownerPub ownerPriv hop hor
  have hwrapTarget : wrapKeyWithRSA aesKey targetPub =
      .ok (natToBytes 16 targetPub.pairId ++ aesKey) := by
    simp [wrapKeyWithRSA, rsaOaepMaxMessage, hkey32]
  have hunwrapTarget : unwrapKeyWithRSA
      (b64decode (b64encode (natToBytes 16 targetPub.pairId ++ aesKey))) targetPriv =
      .ok aesKey := by
    rw [hb64target]
    exact unwrap_wrap aesKey targetPub targetPriv htp htr
  refine ⟨?_, hunwrapTarget, ?_⟩
  · simp only [shareFileAccess, hunwrapOwner, hwrapTarget]
  · have hivRt : b64decode (b64encode ivBytes) = ivBytes := b64decode_b64encode _ hivB
    have htagRt : b64decode (b64encode
        (gcmTag aesKey ivBytes (ctrXor aesKey ivBytes 0 data))) =
        gcmTag aesKey ivBytes (ctrXor aesKey ivBytes 0 data) :=
      b64decode_b64encode _ (gcmTag_lt_256 _ _ _)
    simp only [decryptFile, hunwrapTarget, hivRt, htagRt]
    simp [decryptWithAESGCM, hcond, ctrXor_ctrXor]

/-- Concrete sample content key for the C4 witness. -/
def sampleKey : List Nat := List.replicate 32 9

/-- Concrete sample nonce for the C4 witness. -/
def sampleIv : List Nat := List.replicate 12 3

/-- Concrete sample plaintext for the C4 witness. -/
def sampleData : List Nat := [104, 105]

/-- Ciphertext of the sample plaintext. -/
def sampleCipher : List Nat := ctrXor sampleKey sampleIv 0 sampleData

/-- Metadata produced by `encryptFile` on the sample values (owner pair 5). -/
def sampleMd : EncryptionMetadata :=
  { iv := b64encode sampleIv,
    tag := b64encode (gcmTag sampleKey sampleIv sampleCipher),
    encryptedKey := b64encode (natToBytes 16 5 ++ sampleKey),
    algorithm := "AES-256-GCM", keyEncryption := "RSA-OAEP" }

/-- Witness for C4 at concrete keys, nonce and plaintext (owner pair 5,
target pair 6). -/
theorem share_file_access_correct_witness :
    shareFileAccess ⟨6⟩ ⟨5⟩ sampleMd =
      .ok { iv := sampleMd.iv, tag := sampleMd.tag,
            encryptedKey := b64encode (natToBytes 16 6 ++ sampleKey),
            algorithm := sampleMd.algorithm,
            keyEncryption := sampleMd.keyEncryption } ∧
    unwrapKeyWithRSA (b64decode (b64encode (natToBytes 16 6 ++ sampleKey))) ⟨6⟩ =
      .ok sampleKey ∧
    decryptFile sampleCipher
        { iv := sampleMd.iv, tag := sampleMd.tag,
          encryptedKey := b64encode (natToBytes 16 6 ++ sampleKey),
          algorithm := sampleMd.algorithm,
          keyEncryption := sampleMd.keyEncryption } ⟨6⟩ =
      .ok sampleData :=
  share_file_access_correct sampleKey sampleIv sampleData ⟨5⟩ ⟨5⟩ ⟨6⟩ ⟨6⟩ rfl (by decide)
    rfl (by decide) (by decide) (by decide) (by decide) (by decide)
    sampleCipher sampleMd (by decide)

/-- C5 counterexample: after the kms-server `/encrypt` flow, the store
retains the raw content key and `GET /key/:keyId` returns it (in base64
transport encoding) — a store retains the raw symmetric key and an
interface returns it unwrapped. -/
theorem content_key_exposed :
    storeGet 0 (kmsEncryptHandler (List.replicate 32 7) (List.replicate 12 3)
        [104, 105] 0 []).2 =
      some { key := List.replicate 32 7, iv := List.replicate 12 3,
             tag := gcmTag (List.replicate 32 7) (List.replicate 12 3)
               (ctrXor (List.replicate 32 7) (List.replicate 12 3) 0 [104, 105]) } ∧
    kmsKeyHandler 0 (kmsEncryptHandler (List.replicate 32 7) (List.replicate 12 3)
        [104, 105] 0 []).2 =
      some (b64encode (List.replicate 32 7)) := by
  decide

/-- C5 (amended): the trusted-KMS demo server persists the content key raw
in its store and returns it unwrapped via `GET /key/:keyId`; the client
envelope flow (`encryptFile`) hands out the content key only RSA-wrapped
inside the metadata. -/
theorem content_key_handling (key iv file : List Nat) (freshId : Nat)
    (db : List (Nat × KmsStoreRec))
    (aesKey ivBytes data : List Nat) (pub : RSAPublicKey)
    (h32 : aesKey.length = 32) (hiv : ivBytes.length = 12) :
    kmsKeyHandler freshId (kmsEncryptHandler key iv file freshId db).2 =
      some (b64encode key) ∧
    ∀ C md, encryptFile aesKey ivBytes data pub = .ok (C, md) →
      md.encryptedKey = b64encode (natToBytes 16 pub.pairId ++ aesKey) := by
  constructor
  · simp [kmsKeyHandler, kmsEncryptHandler, storeSave, storeGet, kmsEncrypt]
  · intro C md henc
    have hcond : aesKey.length = 32 ∧ ivBytes.length ≠ 0 := ⟨h32, by omega⟩
    have hencAES : encryptWithAESGCM data aesKey ivBytes =
        .ok { encryptedData := ctrXor aesKey ivBytes 0 data,
              authTag := gcmTag aesKey ivBytes (ctrXor aesKey ivBytes 0 data),
              iv := ivBytes } := by
      simp [encryptWithAESGCM, hcond]
    have hwrap : wrapKeyWithRSA aesKey pub =
        .ok (natToBytes 16 pub.pairId ++ aesKey) := by
      simp [wrapKeyWithRSA, rsaOaepMaxMessage, h32]
    unfold encryptFile at henc
    rw [hencAES, hwrap] at henc
    cases henc
    rfl

/-- Witness for the amended C5 at concrete inputs. -/
theorem content_key_handling_witness :
    kmsKeyHandler 0 (kmsEncryptHandler (List.replicate 32 7) (List.replicate 12 3)
        [104, 105] 0 []).2 = some (b64encode (List.replicate 32 7)) ∧
    EncryptionMetadata.encryptedKey
        { iv := b64encode (List.replicate 12 2),
          tag := b64encode (gcmTag (List.replicate 32 8) (List.replicate 12 2)
            (ctrXor (List.replicate 32 8) (List.replicate 12 2) 0 [1, 2])),
          encryptedKey := b64encode (natToBytes 16 3 ++ List.replicate 32 8),
          algorithm := "AES-256-GCM", keyEncryption := "RSA-OAEP" } =
      b64encode (natToBytes 16 3 ++ List.replicate 32 8) :=
  ⟨(content_key_handling (List.replicate 32 7) (List.replicate 12 3) [104, 105] 0 []
      (List.replicate 32 8) (List.replicate 12 2) [1, 2] ⟨3⟩ (by decide) (by decide)).1,
    (content_key_handling (List.replicate 32 7) (List.replicate 12 3) [104, 105] 0 []
      (List.replicate 32 8) (List.replicate 12 2) [1, 2] ⟨3⟩ (by decide) (by decide)).2
      (ctrXor (List.replicate 32 8) (List.replicate 12 2) 0 [1, 2])
      { iv := b64encode (List.replicate 12 2),
        tag := b64encode (gcmTag (List.replicate 32 8) (List.replicate 12 2)
          (ctrXor (List.replicate 32 8) (List.replicate 12 2) 0 [1, 2])),
        encryptedKey := b64encode (natToBytes 16 3 ++ List.replicate 32 8),
        algorithm := "AES-256-GCM", keyEncryption := "RSA-OAEP" } rfl⟩

/-- C6 counterexample: saving the identical record twice in the
kms-server store leaves two records, not one — `save` is not an
idempotent upsert keyed by (fileId, identity). -/
theorem store_save_not_upsert :
    ((storeSave
        { key := List.replicate 32 7, iv := List.replicate 12 3, tag := List.replicate 16 0 }
        1
        ((storeSave
          { key := List.replicate 32 7, iv := List.replicate 12 3, tag := List.replicate 16 0 }
          0 []).2)).2).length = 2 := by
  decide

/-- C6 (amended): the kms-server `save` appends a new record under a
fresh id on every call; the Next.js `register` handler is an idempotent
upsert keyed by `fileId` alone, and lookup returns the last record
written for that `fileId`. -/
theorem registry_put_semantics :
    (∀ (rec : KmsStoreRec) (freshId : Nat) (db : List (Nat × KmsStoreRec)),
        storeGet freshId (storeSave rec freshId db).2 = some rec ∧
        ((storeSave rec freshId db).2).length = db.length + 1) ∧
    (∀ (fileId : String) (rec rec2 : KeyRecord) (db : KeyDB),
        keyDBRegister fileId rec2 (keyDBRegister fileId rec db) =
          keyDBRegister fileId rec2 db ∧
        keyDBRegister fileId rec db fileId = some rec) := by
  constructor
  · intro rec freshId db
    constructor
    · simp [storeGet, storeSave]
    · simp [storeSave]
  · intro fileId rec rec2 db
    constructor
    · funext x
      by_cases h : x = fileId <;> simp [keyDBRegister, h]
    · simp [keyDBRegister]

/-- C7: two register requests handled in the same millisecond receive the
same serial number (`Date.now().toString()`), so serials are not globally
unique — the code contradicts the uniqueness invariant. -/
theorem pki_serial_collision :
    (pkiRegisterHandler { ms := 1700000000000, year := 2023, subYear := 500 } 1 "MyRootCA"
        { subject := "alice", publicKey := some 5, signedBy := some 5 }).map
        Certificate.serialNumber = .ok 1700000000000 ∧
    (pkiRegisterHandler { ms := 1700000000000, year := 2023, subYear := 500 } 1 "MyRootCA"
        { subject := "bob", publicKey := some 6, signedBy := some 6 }).map
        Certificate.serialNumber = .ok 1700000000000 ∧
    ({ subject := "alice", publicKey := some 5, signedBy := some 5 } : CertificationRequest) ≠
      { subject := "bob", publicKey := some 6, signedBy := some 6 } := by
  decide

/-- C8: the register endpoint rejects with 400 exactly when the CSR
self-signature does not verify or the CSR carries no public key; every
issued leaf certificate embeds the CSR's public key and subject, is
non-CA, is valid from now until the same instant next year, and verifies
under the CA public key. -/
theorem pki_issuance (now : PkiInstant) (caKeyId : Nat) (caSubject : String)
    (csr : CertificationRequest) :
    (isReject400 (pkiRegisterHandler now caKeyId caSubject csr) = true ↔
      (csrVerify csr = false ∨ csr.publicKey = none)) ∧
    (∀ cert, pkiRegisterHandler now caKeyId caSubject csr = .ok cert →
      csr.publicKey = some cert.publicKey ∧ cert.subject = csr.subject ∧
      cert.issuer = caSubject ∧ cert.isCA = false ∧
      cert.notBeforeYear = now.year ∧ cert.notAfterYear = now.year + 1 ∧
      cert.notAfterSub = cert.notBeforeSub ∧
      certVerify caKeyId cert = true) := by
  constructor
  · by_cases hv : csrVerify csr
    · have hpk : ∃ pk, csr.publicKey = some pk := by
        unfold csrVerify at hv
        cases hpk : csr.publicKey with
        | none => rw [hpk] at hv; cases hs : csr.signedBy <;> rw [hs] at hv <;> simp at hv
        | some pk => exact ⟨pk, rfl⟩
      rcases hpk with ⟨pk, hpk⟩
      simp [pkiRegisterHandler, hv, hpk, isReject400]
    · simp [pkiRegisterHandler, hv, isReject400]
  · intro cert hcert
    by_cases hv : csrVerify csr
    · cases hpk : csr.publicKey with
      | none =>
          unfold csrVerify at hv
          rw [hpk] at hv
          cases hs : csr.signedBy <;> rw [hs] at hv <;> simp at hv
      | some pk =>
          unfold pkiRegisterHandler at hcert
          rw [if_neg (by simp [hv]), hpk] at hcert
          cases hcert
          refine ⟨rfl, rfl, rfl, rfl, rfl, rfl, rfl, ?_⟩
          simp [certVerify, certSign, certDigest]
    · unfold pkiRegisterHandler at hcert
      rw [if_pos (by simp [hv])] at hcert
      cases hcert

/-- Witness for C8: a concrete valid CSR is issued the expected leaf
certificate. -/
theorem pki_issuance_witness :
    (isReject400 (pkiRegisterHandler { ms := 42, year := 2024, subYear := 100 } 9 "MyRootCA"
        { subject := "alice", publicKey := some 5, signedBy := some 5 }) = true ↔
      (csrVerify { subject := "alice", publicKey := some 5, signedBy := some 5 } = false ∨
        CertificationRequest.publicKey
          { subject := "alice", publicKey := some 5, signedBy := some 5 } = none)) ∧
    (CertificationRequest.publicKey
        { subject := "alice", publicKey := some 5, signedBy := some 5 } =
      some (certSign 9
          { serialNumber := 42, publicKey := 5, subject := "alice", issuer := "MyRootCA",
            notBeforeYear := 2024, notBeforeSub := 100, notAfterYear := 2025,
            notAfterSub := 100, isCA := false, sigSignerId := none,
            sigDigest := 0 }).publicKey) ∧
    certVerify 9 (certSign 9
        { serialNumber := 42, publicKey := 5, subject := "alice", issuer := "MyRootCA",
          notBeforeYear := 2024, notBeforeSub := 100, notAfterYear := 2025,
          notAfterSub := 100, isCA := false, sigSignerId := none,
          sigDigest := 0 }) = true :=
  ⟨(pki_issuance { ms := 42, year := 2024, subYear := 100 } 9 "MyRootCA"
      { subject := "alice", publicKey := some 5, signedBy := some 5 }).1,
    ((pki_issuance { ms := 42, year := 2024, subYear := 100 } 9 "MyRootCA"
      { subject := "alice", publicKey := some 5, signedBy := some 5 }).2
      (certSign 9
        { serialNumber := 42, publicKey := 5, subject := "alice", issuer := "MyRootCA",
          notBeforeYear := 2024, notBeforeSub := 100, notAfterYear := 2025,
          notAfterSub := 100, isCA := false, sigSignerId := none,
          sigDigest := 0 }) (by decide)).1,
    ((pki_issuance { ms := 42, year := 2024, subYear := 100 } 9 "MyRootCA"
      { subject := "alice", publicKey := some 5, signedBy := some 5 }).2
      (certSign 9
        { serialNumber := 42, publicKey := 5, subject := "alice", issuer := "MyRootCA",
          notBeforeYear := 2024, notBeforeSub := 100, notAfterYear := 2025,
          notAfterSub := 100, isCA := false, sigSignerId := none,
          sigDigest := 0 }) (by decide)).2.2.2.2.2.2.2⟩

/-- C9 counterexample: `cryptoModule.unwrapKeyWithRSA` embeds the
underlying cause in the thrown message, so the failure for malformed
wrapped-key bytes differs in content from the failure for a mismatched
private key. -/
theorem unwrap_errors_distinguishable :
    unwrapKeyWithRSA [] { pairId := 5 } =
      .error "RSA key unwrapping failed: data too small for key size" ∧
    unwrapKeyWithRSA (natToBytes 16 7 ++ List.replicate 32 9) { pairId := 5 } =
      .error "RSA key unwrapping failed: oaep decoding error" ∧
    ("RSA key unwrapping failed: data too small for key size" ≠
      "RSA key unwrapping failed: oaep decoding error") := by
  decide

/-- C9 (amended): the kms-pki-server unwrap endpoint exposes one constant
403 response for every failing input, so its callers cannot distinguish
failure causes; `cryptoModule.unwrapKeyWithRSA`, in contrast, embeds the
underlying cause message. -/
theorem pki_unwrap_constant_failure (caPriv : RSAPrivateKey) (w1 w2 : List Nat)
    (h1 : (pkiUnwrapHandler caPriv w1).status = 403)
    (h2 : (pkiUnwrapHandler caPriv w2).status = 403) :
    pkiUnwrapHandler caPriv w1 = pkiUnwrapHandler caPriv w2 := by
  unfold pkiUnwrapHandler at h1 h2 ⊢
  by_cases c1 : (b64decode w1).length < 16 ∨
      bytesToNat ((b64decode w1).take 16) ≠ caPriv.pairId
  · by_cases c2 : (b64decode w2).length < 16 ∨
        bytesToNat ((b64decode w2).take 16) ≠ caPriv.pairId
    · rw [if_pos c1, if_pos c2]
    · rw [if_neg c2] at h2
      simp at h2
  · rw [if_neg c1] at h1
    simp at h1

/-- Witness for the amended C9: two concrete failing inputs produce the
identical response. -/
theorem pki_unwrap_constant_failure_witness :
    (pkiUnwrapHandler { pairId := 5 } []).status = 403 ∧
    (pkiUnwrapHandler { pairId := 5 } (b64encode (natToBytes 16 7 ++ List.replicate 32 9))).status = 403 ∧
    pkiUnwrapHandler { pairId := 5 } [] =
      pkiUnwrapHandler { pairId := 5 } (b64encode (natToBytes 16 7 ++ List.replicate 32 9)) :=
  ⟨by decide, by decide,
    pki_unwrap_constant_failure { pairId := 5 } []
      (b64encode (natToBytes 16 7 ++ List.replicate 32 9)) (by decide) (by decide)⟩

/-- C10: the Node and WebCrypto modules implement the same cipher — the
WebCrypto module's output is the combined ciphertext split with the tag as
exactly the last 16 bytes, it coincides with the Node module's output, and
each module decrypts the triple produced by the other. -/
theorem node_web_interop (data key iv : List Nat)
    (hkey : key.length = 32) (hiv : iv.length = 12) :
    (webEncryptWithAESGCM data key iv).encryptedData ++
        (webEncryptWithAESGCM data key iv).authTag = subtleEncrypt key iv data ∧
    (webEncryptWithAESGCM data key iv).authTag.length = 16 ∧
    encryptWithAESGCM data key iv =
      .ok { encryptedData := (webEncryptWithAESGCM data key iv).encryptedData,
            authTag := (webEncryptWithAESGCM data key iv).authTag, iv := iv } ∧
    decryptWithAESGCM (webEncryptWithAESGCM data key iv).encryptedData key iv
        (webEncryptWithAESGCM data key iv).authTag = .ok data ∧
    (encryptWithAESGCM data key iv).bind
        (fun r => webDecryptWithAESGCM r.encryptedData key iv r.authTag) = .ok data := by
  have hcond : key.length = 32 ∧ iv.length ≠ 0 := ⟨hkey, by omega⟩
  set c := ctrXor key iv 0 data with hc
  set t := gcmTag key iv c with ht
  have htlen : t.length = 16 := length_gcmTag key iv c
  have hcomblen : (c ++ t).length - 16 = c.length := by
    simp [htlen]
  have htake : (c ++ t).take ((c ++ t).length - 16) = c := by
    rw [hcomblen]
    exact List.take_left c t
  have hdrop : (c ++ t).drop ((c ++ t).length - 16) = t := by
    rw [hcomblen]
    exact List.drop_left c t
  have hwebenc : webEncryptWithAESGCM data key iv =
      { encryptedData := c, authTag := t, iv := iv } := by
    simp only [webEncryptWithAESGCM, subtleEncrypt, List.length_append]
    rw [← hc, ← ht]
    have hlen2 : c.length + t.length - 16 = c.length := by omega
    rw [hlen2, List.take_left, List.drop_left]
  refine ⟨?_, ?_, ?_, ?_, ?_⟩
  · rw [hwebenc]
    unfold subtleEncrypt
    rw [← hc, ← ht]
  · rw [hwebenc]
    exact htlen
  · rw [hwebenc]
    simp [encryptWithAESGCM, hcond, ← hc, ← ht]
  · rw [hwebenc]
    simp [decryptWithAESGCM, hcond, ← ht, ctrXor_ctrXor, hc]
  · have hencOk : encryptWithAESGCM data key iv =
        .ok { encryptedData := c, authTag := t, iv := iv } := by
      simp [encryptWithAESGCM, hcond, ← hc, ← ht]
    rw [hencOk, except_bind_ok]
    unfold webDecryptWithAESGCM subtleDecrypt
    rw [if_pos ⟨by simp [htlen], by rw [hdrop, htake]⟩, htake, hc, ctrXor_ctrXor]

/-- Witness for C10 at a concrete key, nonce and plaintext. -/
theorem node_web_interop_witness :
    (webEncryptWithAESGCM [104, 105] (List.replicate 32 7) (List.replicate 12 3)).encryptedData ++
        (webEncryptWithAESGCM [104, 105] (List.replicate 32 7) (List.replicate 12 3)).authTag =
      subtleEncrypt (List.replicate 32 7) (List.replicate 12 3) [104, 105] ∧
    (webEncryptWithAESGCM [104, 105] (List.replicate 32 7) (List.replicate 12 3)).authTag.length = 16 ∧
    encryptWithAESGCM [104, 105] (List.replicate 32 7) (List.replicate 12 3) =
      .ok { encryptedData :=
              (webEncryptWithAESGCM [104, 105] (List.replicate 32 7) (List.replicate 12 3)).encryptedData,
            authTag :=
              (webEncryptWithAESGCM [104, 105] (List.replicate 32 7) (List.replicate 12 3)).authTag,
            iv := List.replicate 12 3 } ∧
    decryptWithAESGCM
        (webEncryptWithAESGCM [104, 105] (List.replicate 32 7) (List.replicate 12 3)).encryptedData
        (List.replicate 32 7) (List.replicate 12 3)
        (webEncryptWithAESGCM [104, 105] (List.replicate 32 7) (List.replicate 12 3)).authTag =
      .ok [104, 105] ∧
    (encryptWithAESGCM [104, 105] (List.replicate 32 7) (List.replicate 12 3)).bind
        (fun r => webDecryptWithAESGCM r.encryptedData (List.replicate 32 7)
          (List.replicate 12 3) r.authTag) = .ok [104, 105] :=
  node_web_interop [104, 105] (List.replicate 32 7) (List.replicate 12 3) (by decide) (by decide)
